import Mathlib

/-
  Verification of the request-handling core of `serve-dir` (src/src/main.rs),
  a minimal HTTP file server.  The Rust source is shallowly embedded below:
  hyper's response builder becomes an explicit `ResponseBuilder` state, the
  filesystem becomes an explicit oracle (`FileSystem`), async reads become
  plain function calls, and every `println!` log line becomes a `LogLine`
  value returned beside the response.  `.unwrap()` calls on the builder are
  modelled by returning `Option`: `none` marks the panic that `unwrap` would
  raise on a builder error.
-/

set_option autoImplicit false

namespace ServeDir

/-- HTTP method of an incoming request.  `GET` and `OPTIONS` are the two
methods the handler dispatches on; every other method is carried by name. -/
inductive Method where
  | GET
  | OPTIONS
  | other (name : String)
deriving DecidableEq, Repr

/-- Display name of a method, as it would appear in a log line. -/
def Method.name : Method → String
  | Method.GET => "GET"
  | Method.OPTIONS => "OPTIONS"
  | Method.other s => s

/-- An incoming request: method, the URI path component (`uri.path()`, which
for requests parsed by the runtime begins with a slash), and the rendered
URI used in log lines (`{}` display of `request.uri()`). -/
structure Request where
  method : Method
  path : String
  uri : String
deriving DecidableEq, Repr

/-- Response body, mirroring the three `Body::from` constructions used by
the source: a byte vector read from a file, a literal string, or empty. -/
inductive Body where
  | empty
  | str (s : String)
  | bytes (data : List UInt8)
deriving DecidableEq, Repr

/-- An outgoing response: status code, header list in insertion order
(hyper's builder appends each `.header` call), and body. -/
structure Response where
  status : Nat
  headers : List (String × String)
  body : Body
deriving DecidableEq, Repr

/-- One log line, decomposed into the fields the `println!` calls format:
the millisecond timestamp taken at entry, the bracketed status, the
bracketed method tag, the displayed URI, and the trailing reason text. -/
structure LogLine where
  time : Nat
  status : Nat
  methodTag : String
  uri : String
  reason : String
deriving DecidableEq, Repr

/-- The filesystem oracle: `isFile p` models `PathBuf::is_file()` and
`read p` models `tokio::fs::read` (`Except.error` carries the displayed
I/O error message).  The two may disagree on a path, modelling the race
where a file disappears between the check and the read. -/
structure FileSystem where
  isFile : String → Bool
  read : String → Except String (List UInt8)

/-- The shared configuration handed to every handler invocation
(`struct SharedData` in the source). -/
structure SharedData where
  headers : List (String × String)
  directory_path : String
  not_found_file_path : Option String

/-- Characters accepted in a header name by the `http` crate's
`HeaderName` parsing, restricted to the pre-lowercased names the
configuration actually stores (token characters minus uppercase). -/
def isTokenChar (c : Char) : Bool :=
  c.isLower || c.isDigit ||
    c = '!' || c = '#' || c = '$' || c = '%' || c = '&' || c = '*' ||
    c = '+' || c = '-' || c = '.' || c = '^' || c = '_' || c = '|' || c = '~'

/-- Validity of a header name: nonempty and all token characters.
An invalid name makes hyper's builder record an error, so the later
`.body(..).unwrap()` panics. -/
def validHeaderName (s : String) : Bool :=
  !s.isEmpty && s.toList.all isTokenChar

/-- Validity of a header value, following `HeaderValue` byte validity:
tab, or any byte that is at least 32 and not DEL. -/
def validHeaderValue (s : String) : Bool :=
  s.toList.all (fun c => c.toNat = 9 || (32 ≤ c.toNat && c.toNat ≠ 127))

/-- All names and values in a header list are valid. -/
def validHeaders (hs : List (String × String)) : Bool :=
  hs.all (fun kv => validHeaderName kv.1 && validHeaderValue kv.2)

/-- hyper's `Response::builder()` state: accumulated headers, current
status (default 200), and whether a previous builder call failed (in which
case every later call is a no-op and `.body` returns an error). -/
structure ResponseBuilder where
  headerList : List (String × String)
  statusCode : Nat
  hasError : Bool
deriving Repr

/-- `Response::builder()`. -/
def ResponseBuilder.new : ResponseBuilder :=
  { headerList := [], statusCode := 200, hasError := false }

/-- `builder.header(key, value)`: appends the pair if the builder is
error-free and the name and value parse; otherwise records an error. -/
def ResponseBuilder.header (b : ResponseBuilder) (key value : String) : ResponseBuilder :=
  if b.hasError then b
  else if validHeaderName key && validHeaderValue value then
    { b with headerList := b.headerList ++ [(key, value)] }
  else
    { b with hasError := true }

/-- `builder.status(s)`: sets the status if the builder is error-free and
the code is a valid `StatusCode` (100..=999); otherwise records an error. -/
def ResponseBuilder.status (b : ResponseBuilder) (s : Nat) : ResponseBuilder :=
  if b.hasError then b
  else if 100 ≤ s ∧ s ≤ 999 then { b with statusCode := s }
  else { b with hasError := true }

/-- `builder.body(bd)`: `some` response on success, `none` when the
builder holds an error — the point where the source's `.unwrap()` would
panic. -/
def ResponseBuilder.body (b : ResponseBuilder) (bd : Body) : Option Response :=
  if b.hasError then none
  else some { status := b.statusCode, headers := b.headerList, body := bd }

/-- The `Update` trait impl on `Vec<(String, String)>` (main.rs:18-28):
scan for the first entry whose key equals the new key; if found overwrite
that entry's value in place and return `true`, otherwise push the pair and
return `false`. -/
def update : List (String × String) → String × String → List (String × String) × Bool
  | [], v => ([v], false)
  | x :: xs, v =>
    if x.1 = v.1 then ((x.1, v.2) :: xs, true)
    else
      let r := update xs v
      (x :: r.1, r.2)

/-- The default-header step of `main` (main.rs:113-118): unless the user
opted out, push `access-control-allow-origin: *` onto the header list. -/
def apply_default_headers (no_default_headers : Bool)
    (headers : List (String × String)) : List (String × String) :=
  if no_default_headers then headers
  else headers ++ [("access-control-allow-origin", "*")]

/-- `not_found_body` (main.rs:209-217): if a fallback path is configured
and reads successfully, its bytes with flag `true`; otherwise the literal
`404 Not Found` with flag `false`. -/
def not_found_body (fs : FileSystem) (path : Option String) : Body × Bool :=
  match path with
  | some val =>
    match fs.read val with
    | Except.ok data => (Body.bytes data, true)
    | Except.error _ => (Body.str "404 Not Found", false)
  | none => (Body.str "404 Not Found", false)

/-- Rust's `uri_path.starts_with('.')` with a `char` pattern: true when
the first character of the string is a dot. -/
def startsWithDot (s : String) : Bool :=
  match s.data with
  | [] => false
  | c :: _ => c == '.'

/-- The shared not-found exit of `request_handler` (main.rs:191-206):
resolve the body, add a `content-type` header (`text/html` for a
file-backed body, the literal `plain/text` otherwise), set status 404,
and log. -/
def not_found_response (rb : ResponseBuilder) (fs : FileSystem)
    (shared_data : SharedData) (request : Request) (time_of_request : Nat) :
    Option (Response × LogLine) :=
  let r := not_found_body fs shared_data.not_found_file_path
  (((rb.header "content-type" (if r.2 then "text/html" else "plain/text")).status 404).body
      r.1).map
    (fun resp =>
      (resp,
        { time := time_of_request, status := 404, methodTag := "GET",
          uri := request.uri, reason := "requested address not found" }))

/-- The file-serving tail of the GET branch (main.rs:166-182): build the
candidate path by plain concatenation, and if it is a regular file read
it (200 on success, 500 on I/O error); otherwise fall through to the
shared not-found exit. -/
def serve_file (rb : ResponseBuilder) (fs : FileSystem) (shared_data : SharedData)
    (uri_path : String) (request : Request) (time_of_request : Nat) :
    Option (Response × LogLine) :=
  let file_path := shared_data.directory_path ++ uri_path
  if fs.isFile file_path then
    match fs.read file_path with
    | Except.ok data =>
      (rb.body (Body.bytes data)).map
        (fun resp =>
          (resp,
            { time := time_of_request, status := 200, methodTag := "GET",
              uri := request.uri, reason := "requested file path" }))
    | Except.error err =>
      ((rb.status 500).body (Body.str "Something Went Wrong :(")).map
        (fun resp =>
          (resp,
            { time := time_of_request, status := 500, methodTag := "GET",
              uri := request.uri, reason := err }))
  else
    not_found_response rb fs shared_data request time_of_request

/-- `request_handler` (main.rs:140-207).  Headers are applied to the
builder first; the timestamp is taken once before any filesystem access;
then the method dispatch runs.  The returned `LogLine` is the single
`println!` the taken branch performs. -/
def request_handler (request : Request) (shared_data : SharedData)
    (fs : FileSystem) (time_of_request : Nat) : Option (Response × LogLine) :=
  let rb := shared_data.headers.foldl (fun b kv => b.header kv.1 kv.2) ResponseBuilder.new
  match request.method with
  | Method.GET =>
    let uri_path := request.path.drop 1
    if uri_path = "" then
      serve_file rb fs shared_data "index.html" request time_of_request
    else if startsWithDot uri_path then
      ((rb.status 403).body (Body.str "Invalid Path")).map
        (fun resp =>
          (resp,
            { time := time_of_request, status := 403, methodTag := "GET",
              uri := request.uri, reason := "requested invalid path" }))
    else
      serve_file rb fs shared_data uri_path request time_of_request
  | Method.OPTIONS =>
    (rb.body Body.empty).map
      (fun resp =>
        (resp,
          { time := time_of_request, status := 200, methodTag := "OPTIONS",
            uri := request.uri, reason := "" }))
  | Method.other _ =>
    not_found_response rb fs shared_data request time_of_request

end ServeDir

namespace ServeDir

/-- A builder that already holds an error absorbs every later header call. -/
theorem foldl_header_error (hs : List (String × String)) (b : ResponseBuilder)
    (h : b.hasError = true) :
    hs.foldl (fun b kv => b.header kv.1 kv.2) b = b := by
  induction hs generalizing b with
  | nil => rfl
  | cons x tl ih =>
    rw [List.foldl_cons, show b.header x.1 x.2 = b from by simp [ResponseBuilder.header, h]]
    exact ih b h

/-- If folding a header list over a builder ends without error, the start
builder was error-free and the fold appended exactly the list, leaving the
status untouched. -/
theorem foldl_header_ok (hs : List (String × String)) (b : ResponseBuilder)
    (h : (hs.foldl (fun b kv => b.header kv.1 kv.2) b).hasError = false) :
    b.hasError = false ∧
    (hs.foldl (fun b kv => b.header kv.1 kv.2) b).headerList = b.headerList ++ hs ∧
    (hs.foldl (fun b kv => b.header kv.1 kv.2) b).statusCode = b.statusCode := by
  induction hs generalizing b with
  | nil => exact ⟨h, by simp, rfl⟩
  | cons x tl ih =>
    rw [List.foldl_cons] at h ⊢
    by_cases hb : b.hasError
    · rw [show b.header x.1 x.2 = b from by simp [ResponseBuilder.header, hb],
        foldl_header_error tl b hb] at h
      exact absurd h (by simp [hb])
    · by_cases hv : (validHeaderName x.1 && validHeaderValue x.2) = true
      · have hstep : b.header x.1 x.2 = { b with headerList := b.headerList ++ [x] } := by
          simp [ResponseBuilder.header, hb, hv]
        rw [hstep] at h ⊢
        obtain ⟨-, h2, h3⟩ := ih _ h
        refine ⟨by simp [hb], ?_, h3⟩
        simpa [List.append_assoc] using h2
      · have hstep : b.header x.1 x.2 = { b with hasError := true } := by
          simp [ResponseBuilder.header, hb, hv]
        rw [hstep, foldl_header_error tl _ (by simp)] at h
        simp at h

/-- Folding a fully valid header list over an error-free builder appends
exactly that list. -/
theorem foldl_header_valid (hs : List (String × String)) (b : ResponseBuilder)
    (hb : b.hasError = false) (hv : validHeaders hs = true) :
    hs.foldl (fun b kv => b.header kv.1 kv.2) b =
      { headerList := b.headerList ++ hs, statusCode := b.statusCode, hasError := false } := by
  induction hs generalizing b with
  | nil =>
    cases b
    simp_all
  | cons x tl ih =>
    rw [validHeaders, List.all_cons, Bool.and_eq_true] at hv
    rw [List.foldl_cons,
      show b.header x.1 x.2 = { b with headerList := b.headerList ++ [x] } from by
        simp [ResponseBuilder.header, hb, hv.1],
      ih { b with headerList := b.headerList ++ [x] } hb hv.2]
    simp

/-- The header fold of `request_handler`, on a valid configuration. -/
theorem rb_of_valid (shared : SharedData) (hv : validHeaders shared.headers = true) :
    shared.headers.foldl (fun b kv => b.header kv.1 kv.2) ResponseBuilder.new =
      { headerList := shared.headers, statusCode := 200, hasError := false } := by
  simpa [ResponseBuilder.new] using
    foldl_header_valid shared.headers ResponseBuilder.new rfl hv

/-- Inversion for `.body`: a built response carries the builder's status,
headers, and the given body, and the builder was error-free. -/
theorem body_eq_some (b : ResponseBuilder) (bd : Body) (r : Response)
    (h : b.body bd = some r) :
    b.hasError = false ∧
    r = { status := b.statusCode, headers := b.headerList, body := bd } := by
  by_cases hb : b.hasError
  · simp [ResponseBuilder.body, hb] at h
  · refine ⟨by simp [hb], ?_⟩
    simp [ResponseBuilder.body, hb] at h
    exact h.symm

/-- Inversion for `.status(s).body`, for a status in the valid range. -/
theorem status_body_eq_some (b : ResponseBuilder) (s : Nat) (bd : Body) (r : Response)
    (hs1 : 100 ≤ s) (hs2 : s ≤ 999)
    (h : (b.status s).body bd = some r) :
    b.hasError = false ∧
    r = { status := s, headers := b.headerList, body := bd } := by
  by_cases hb : b.hasError
  · rw [show b.status s = b from by simp [ResponseBuilder.status, hb]] at h
    simp [ResponseBuilder.body, hb] at h
  · rw [show b.status s = { b with statusCode := s } from by
      simp [ResponseBuilder.status, hb, hs1, hs2]] at h
    obtain ⟨-, hr⟩ := body_eq_some _ _ _ h
    exact ⟨by simp [hb], hr⟩

end ServeDir

namespace ServeDir

/-- Inversion for the shared not-found exit: it only succeeds when the
builder was error-free, and then the response is a 404 carrying the
builder's headers plus one `content-type` header whose value depends on
whether the body came from the fallback file, and the log line is the
fixed not-found line. -/
theorem not_found_response_eq_some (rb : ResponseBuilder) (fs : FileSystem)
    (shared_data : SharedData) (request : Request) (t : Nat) (r : Response) (l : LogLine)
    (h : not_found_response rb fs shared_data request t = some (r, l)) :
    rb.hasError = false ∧
    r = { status := 404,
          headers := rb.headerList ++
            [("content-type",
              if (not_found_body fs shared_data.not_found_file_path).2 then "text/html"
              else "plain/text")],
          body := (not_found_body fs shared_data.not_found_file_path).1 } ∧
    l = { time := t, status := 404, methodTag := "GET", uri := request.uri,
          reason := "requested address not found" } := by
  have hct : ∀ bl : Bool,
      (validHeaderName "content-type" &&
        validHeaderValue (if bl then "text/html" else "plain/text")) = true := by
    decide
  by_cases hb : rb.hasError
  · simp [not_found_response, ResponseBuilder.header, ResponseBuilder.status,
      ResponseBuilder.body, hb] at h
  · have hstep : rb.header "content-type"
        (if (not_found_body fs shared_data.not_found_file_path).2 then "text/html"
         else "plain/text") =
        { rb with headerList := rb.headerList ++
            [("content-type",
              if (not_found_body fs shared_data.not_found_file_path).2 then "text/html"
              else "plain/text")] } := by
      simp [ResponseBuilder.header, hb, hct]
    simp only [not_found_response, hstep] at h
    obtain ⟨resp, hresp, heq⟩ := Option.map_eq_some'.mp h
    obtain ⟨-, hr⟩ := status_body_eq_some _ 404 _ _ (by norm_num) (by norm_num) hresp
    refine ⟨by simp [hb], ?_, ?_⟩
    · rw [← (Prod.mk.injEq _ _ _ _).mp heq |>.1, hr]
    · exact ((Prod.mk.injEq _ _ _ _).mp heq).2.symm ▸ rfl

end ServeDir

namespace ServeDir

/-- Inversion for the file-serving tail of the GET branch: either the
candidate was a file and was read (200), or a file whose read failed
(500), or not a file and the not-found exit produced the result. -/
theorem serve_file_eq_some (rb : ResponseBuilder) (fs : FileSystem) (shared_data : SharedData)
    (uri_path : String) (request : Request) (t : Nat) (r : Response) (l : LogLine)
    (h : serve_file rb fs shared_data uri_path request t = some (r, l)) :
    rb.hasError = false ∧
    ((∃ data,
        fs.isFile (shared_data.directory_path ++ uri_path) = true ∧
        fs.read (shared_data.directory_path ++ uri_path) = Except.ok data ∧
        r = { status := rb.statusCode, headers := rb.headerList, body := Body.bytes data } ∧
        l = { time := t, status := 200, methodTag := "GET", uri := request.uri,
              reason := "requested file path" }) ∨
     (∃ err,
        fs.isFile (shared_data.directory_path ++ uri_path) = true ∧
        fs.read (shared_data.directory_path ++ uri_path) = Except.error err ∧
        r = { status := 500, headers := rb.headerList,
              body := Body.str "Something Went Wrong :(" } ∧
        l = { time := t, status := 500, methodTag := "GET", uri := request.uri,
              reason := err }) ∨
     (fs.isFile (shared_data.directory_path ++ uri_path) = false ∧
      not_found_response rb fs shared_data request t = some (r, l))) := by
  by_cases hf : fs.isFile (shared_data.directory_path ++ uri_path)
  · simp only [serve_file, hf, if_true] at h
    cases hread : fs.read (shared_data.directory_path ++ uri_path) with
    | ok data =>
      rw [hread] at h
      simp only [] at h
      obtain ⟨resp, hresp, heq⟩ := Option.map_eq_some'.mp h
      obtain ⟨hb, hr⟩ := body_eq_some _ _ _ hresp
      obtain ⟨hr1, hl1⟩ := (Prod.mk.injEq _ _ _ _).mp heq
      exact ⟨hb, Or.inl ⟨data, hf, rfl, by rw [← hr1, hr], hl1.symm⟩⟩
    | error err =>
      rw [hread] at h
      simp only [] at h
      obtain ⟨resp, hresp, heq⟩ := Option.map_eq_some'.mp h
      obtain ⟨hb, hr⟩ := status_body_eq_some _ 500 _ _ (by norm_num) (by norm_num) hresp
      obtain ⟨hr1, hl1⟩ := (Prod.mk.injEq _ _ _ _).mp heq
      exact ⟨hb, Or.inr (Or.inl ⟨err, hf, rfl, by rw [← hr1, hr], hl1.symm⟩)⟩
  · simp only [serve_file, hf, if_false] at h
    exact ⟨(not_found_response_eq_some _ _ _ _ _ _ _ h).1,
      Or.inr (Or.inr ⟨by simpa using hf, h⟩)⟩

end ServeDir

namespace ServeDir

/-- Field view of the header fold once it is known to be error-free:
it holds exactly the configured headers and the default status 200. -/
theorem rb_fields_of_ok (shared_headers : List (String × String))
    (h : (shared_headers.foldl (fun b kv => b.header kv.1 kv.2) ResponseBuilder.new).hasError
      = false) :
    (shared_headers.foldl (fun b kv => b.header kv.1 kv.2) ResponseBuilder.new).headerList
        = shared_headers ∧
    (shared_headers.foldl (fun b kv => b.header kv.1 kv.2) ResponseBuilder.new).statusCode
        = 200 := by
  obtain ⟨-, h2, h3⟩ := foldl_header_ok shared_headers ResponseBuilder.new h
  exact ⟨by simpa [ResponseBuilder.new] using h2, by simpa [ResponseBuilder.new] using h3⟩

/-- Every successful result of `serve_file` keeps the builder's headers as
a prefix of the response headers. -/
theorem serve_file_headers (rb : ResponseBuilder) (fs : FileSystem) (shared_data : SharedData)
    (uri_path : String) (request : Request) (t : Nat) (r : Response) (l : LogLine)
    (h : serve_file rb fs shared_data uri_path request t = some (r, l)) :
    ∃ rest, r.headers = rb.headerList ++ rest := by
  obtain ⟨-, hc⟩ := serve_file_eq_some _ _ _ _ _ _ _ _ h
  rcases hc with ⟨data, -, -, hr, -⟩ | ⟨err, -, -, hr, -⟩ | ⟨-, hnf⟩
  · exact ⟨[], by simp [hr]⟩
  · exact ⟨[], by simp [hr]⟩
  · obtain ⟨-, hr, -⟩ := not_found_response_eq_some _ _ _ _ _ _ _ hnf
    exact ⟨[("content-type",
      if (not_found_body fs shared_data.not_found_file_path).2 then "text/html"
      else "plain/text")], by simp [hr]⟩

end ServeDir

namespace ServeDir

/-- C1: a GET whose stripped relative path is non-empty, not dot-leading,
and names an existing regular file is answered 200 with that file's exact
bytes; if the subsequent read fails, the answer is 500 with the fixed body
`Something Went Wrong :(` — the underlying error reaches only the log
line, never the body. -/
theorem claim_c1 (request : Request) (shared_data : SharedData) (fs : FileSystem) (t : Nat)
    (hvalid : validHeaders shared_data.headers = true)
    (hm : request.method = Method.GET)
    (hne : request.path.drop 1 ≠ "")
    (hdot : startsWithDot (request.path.drop 1) = false)
    (hfile : fs.isFile (shared_data.directory_path ++ request.path.drop 1) = true) :
    (∀ data, fs.read (shared_data.directory_path ++ request.path.drop 1) = Except.ok data →
      request_handler request shared_data fs t =
        some ({ status := 200, headers := shared_data.headers, body := Body.bytes data },
          { time := t, status := 200, methodTag := "GET", uri := request.uri,
            reason := "requested file path" })) ∧
    (∀ err, fs.read (shared_data.directory_path ++ request.path.drop 1) = Except.error err →
      request_handler request shared_data fs t =
        some ({ status := 500, headers := shared_data.headers,
                body := Body.str "Something Went Wrong :(" },
          { time := t, status := 500, methodTag := "GET", uri := request.uri,
            reason := err })) := by
  obtain ⟨m, p, u⟩ := request
  simp only at hm hne hdot hfile
  subst hm
  have hrb := rb_of_valid shared_data hvalid
  constructor
  · intro data hread
    simp only [request_handler, hrb, if_neg hne, hdot, Bool.false_eq_true, if_false,
      serve_file, hfile, if_true, hread, ResponseBuilder.body]
    simp
  · intro err hread
    simp only [request_handler, hrb, if_neg hne, hdot, Bool.false_eq_true, if_false,
      serve_file, hfile, if_true, hread, ResponseBuilder.status, ResponseBuilder.body]
    norm_num

end ServeDir

namespace ServeDir

/-- A concrete filesystem holding one readable file `root/a.txt`. -/
def fsA : FileSystem :=
  { isFile := fun p => p == "root/a.txt",
    read := fun p => if p == "root/a.txt" then Except.ok [65, 66] else Except.error "denied" }

/-- A concrete filesystem whose `is_file` check sees `root/a.txt` but
whose read always fails, modelling a permission error or a race. -/
def fsDenied : FileSystem :=
  { isFile := fun p => p == "root/a.txt",
    read := fun _ => Except.error "permission denied" }

/-- A concrete filesystem with no files and no readable paths. -/
def fsNone : FileSystem :=
  { isFile := fun _ => false, read := fun _ => Except.error "not found" }

/-- Witness for C1 at a concrete request, configuration, and filesystem:
both the successful-read and the failing-read conclusions. -/
theorem claim_c1_witness :
    request_handler { method := Method.GET, path := "/a.txt", uri := "/a.txt" }
        { headers := [("x-a", "1")], directory_path := "root/", not_found_file_path := none }
        fsA 7 =
      some ({ status := 200, headers := [("x-a", "1")], body := Body.bytes [65, 66] },
        { time := 7, status := 200, methodTag := "GET", uri := "/a.txt",
          reason := "requested file path" }) ∧
    request_handler { method := Method.GET, path := "/a.txt", uri := "/a.txt" }
        { headers := [("x-a", "1")], directory_path := "root/", not_found_file_path := none }
        fsDenied 7 =
      some ({ status := 500, headers := [("x-a", "1")],
              body := Body.str "Something Went Wrong :(" },
        { time := 7, status := 500, methodTag := "GET", uri := "/a.txt",
          reason := "permission denied" }) :=
  ⟨(claim_c1 _ _ _ 7 (by decide) rfl (by decide) (by decide) rfl).1 [65, 66] rfl,
   (claim_c1 _ _ _ 7 (by decide) rfl (by decide) (by decide) rfl).2 "permission denied" rfl⟩

end ServeDir

namespace ServeDir

/-- C2: every response the handler produces carries the full configured
header list as a prefix, in configuration order — the headers are folded
onto the builder before any status-specific logic, and afterwards only the
404 exit appends one extra `content-type` entry at the end. -/
theorem claim_c2 (request : Request) (shared_data : SharedData) (fs : FileSystem) (t : Nat)
    (r : Response) (l : LogLine)
    (h : request_handler request shared_data fs t = some (r, l)) :
    ∃ rest, r.headers = shared_data.headers ++ rest := by
  obtain ⟨m, p, u⟩ := request
  have hb_to_headers :
      ∀ rest,
        r.headers =
          (shared_data.headers.foldl (fun b kv => b.header kv.1 kv.2)
            ResponseBuilder.new).headerList ++ rest →
        (shared_data.headers.foldl (fun b kv => b.header kv.1 kv.2)
            ResponseBuilder.new).hasError = false →
        ∃ rest, r.headers = shared_data.headers ++ rest := by
    intro rest hr he
    exact ⟨rest, by rw [hr, (rb_fields_of_ok shared_data.headers he).1]⟩
  cases m with
  | GET =>
    simp only [request_handler] at h
    by_cases hp : p.drop 1 = ""
    · rw [if_pos hp] at h
      obtain ⟨he, -⟩ := serve_file_eq_some _ _ _ _ _ _ _ _ h
      obtain ⟨rest, hr⟩ := serve_file_headers _ _ _ _ _ _ _ _ h
      exact hb_to_headers rest hr he
    · rw [if_neg hp] at h
      by_cases hd : startsWithDot (p.drop 1)
      · rw [if_pos hd] at h
        obtain ⟨resp, hresp, heq⟩ := Option.map_eq_some'.mp h
        obtain ⟨he, hr⟩ := status_body_eq_some _ 403 _ _ (by norm_num) (by norm_num) hresp
        refine hb_to_headers [] ?_ he
        rw [← ((Prod.mk.injEq _ _ _ _).mp heq).1, hr]
        simp
      · rw [if_neg hd] at h
        obtain ⟨he, -⟩ := serve_file_eq_some _ _ _ _ _ _ _ _ h
        obtain ⟨rest, hr⟩ := serve_file_headers _ _ _ _ _ _ _ _ h
        exact hb_to_headers rest hr he
  | OPTIONS =>
    simp only [request_handler] at h
    obtain ⟨resp, hresp, heq⟩ := Option.map_eq_some'.mp h
    obtain ⟨he, hr⟩ := body_eq_some _ _ _ hresp
    refine hb_to_headers [] ?_ he
    rw [← ((Prod.mk.injEq _ _ _ _).mp heq).1, hr]
    simp
  | other name =>
    simp only [request_handler] at h
    obtain ⟨he, hr, -⟩ := not_found_response_eq_some _ _ _ _ _ _ _ h
    refine hb_to_headers
      [("content-type",
        if (not_found_body fs shared_data.not_found_file_path).2 then "text/html"
        else "plain/text")] ?_ he
    rw [hr]

/-- Witness for C2 at a concrete OPTIONS request. -/
theorem claim_c2_witness :
    ∃ rest,
      (({ status := 200, headers := [("x-a", "1"), ("x-b", "2")], body := Body.empty } :
        Response)).headers = [("x-a", "1"), ("x-b", "2")] ++ rest :=
  claim_c2 { method := Method.OPTIONS, path := "/", uri := "/" }
    { headers := [("x-a", "1"), ("x-b", "2")], directory_path := "root/",
      not_found_file_path := none }
    fsNone 3
    { status := 200, headers := [("x-a", "1"), ("x-b", "2")], body := Body.empty }
    { time := 3, status := 200, methodTag := "OPTIONS", uri := "/", reason := "" }
    rfl

end ServeDir

namespace ServeDir

/-- C3: for a GET whose stripped path is non-empty, the handler answers
403 `Invalid Path` — and does so without consulting the filesystem —
exactly when the first character of the stripped path is a dot; when the
first character is anything else (including a path with embedded `..`
segments) the 403 guard never fires. -/
theorem claim_c3 (request : Request) (shared_data : SharedData) (t : Nat)
    (hm : request.method = Method.GET)
    (hne : request.path.drop 1 ≠ "") :
    (startsWithDot (request.path.drop 1) = true →
      (∀ fs fs', request_handler request shared_data fs t =
        request_handler request shared_data fs' t) ∧
      (∀ fs r l, ∀ _ : request_handler request shared_data fs t = some (r, l),
        r.status = 403 ∧ r.body = Body.str "Invalid Path")) ∧
    (startsWithDot (request.path.drop 1) = false →
      ∀ fs r l, ∀ _ : request_handler request shared_data fs t = some (r, l),
        r.status ≠ 403) := by
  obtain ⟨m, p, u⟩ := request
  simp only at hm hne
  subst hm
  constructor
  · intro hd
    constructor
    · intro fs fs'
      simp only [request_handler]
      rw [if_neg hne, if_pos hd, if_neg hne, if_pos hd]
    · intro fs r l h
      simp only [request_handler] at h
      rw [if_neg hne, if_pos hd] at h
      obtain ⟨resp, hresp, heq⟩ := Option.map_eq_some'.mp h
      obtain ⟨-, hr⟩ := status_body_eq_some _ 403 _ _ (by norm_num) (by norm_num) hresp
      rw [← ((Prod.mk.injEq _ _ _ _).mp heq).1, hr]
      exact ⟨rfl, rfl⟩
  · intro hd fs r l h
    simp only [request_handler] at h
    rw [if_neg hne, if_neg (by simp [hd])] at h
    obtain ⟨he, hc⟩ := serve_file_eq_some _ _ _ _ _ _ _ _ h
    have h200 := (rb_fields_of_ok shared_data.headers he).2
    rcases hc with ⟨data, -, -, hr, -⟩ | ⟨err, -, -, hr, -⟩ | ⟨-, hnf⟩
    · rw [hr]
      simp [h200]
    · rw [hr]
      simp
    · obtain ⟨-, hr, -⟩ := not_found_response_eq_some _ _ _ _ _ _ _ hnf
      rw [hr]
      simp

/-- Witness for C3: a dotted path `/.hidden` yields the 403 response
independently of the filesystem, while the traversal-shaped path
`/a/../../etc/passwd` passes the guard (the 404 it produces on an empty
filesystem is not a 403). -/
theorem claim_c3_witness :
    (request_handler { method := Method.GET, path := "/.hidden", uri := "/.hidden" }
        { headers := [], directory_path := "root/", not_found_file_path := none } fsA 1 =
      request_handler { method := Method.GET, path := "/.hidden", uri := "/.hidden" }
        { headers := [], directory_path := "root/", not_found_file_path := none } fsNone 1) ∧
    (({ status := 403, headers := [], body := Body.str "Invalid Path" } : Response).status = 403 ∧
      ({ status := 403, headers := [], body := Body.str "Invalid Path" } : Response).body =
        Body.str "Invalid Path") ∧
    ({ status := 404, headers := [("content-type", "plain/text")],
        body := Body.str "404 Not Found" } : Response).status ≠ 403 :=
  ⟨((claim_c3 { method := Method.GET, path := "/.hidden", uri := "/.hidden" }
      { headers := [], directory_path := "root/", not_found_file_path := none } 1 rfl
      (by decide)).1 (by decide)).1 fsA fsNone,
   ((claim_c3 { method := Method.GET, path := "/.hidden", uri := "/.hidden" }
      { headers := [], directory_path := "root/", not_found_file_path := none } 1 rfl
      (by decide)).1 (by decide)).2 fsNone _ _ rfl,
   (claim_c3 { method := Method.GET, path := "/a/../../etc/passwd", uri := "/a/../../etc/passwd" }
      { headers := [], directory_path := "root/", not_found_file_path := none } 1 rfl
      (by decide)).2 (by decide) fsNone _ _ rfl⟩

end ServeDir

namespace ServeDir

/-- C4: in the shared not-found resolution — reached both by a GET whose
candidate path is not a regular file and by any non-GET/non-OPTIONS
method — a configured fallback file that reads successfully produces a
404 with the file's bytes and a `content-type: text/html` header; when
its read fails the handler silently degrades to the literal
`404 Not Found` body — still a 404, never a 500. -/
theorem claim_c4 (request : Request) (shared_data : SharedData) (fs : FileSystem) (t : Nat)
    (mname fp : String)
    (hvalid : validHeaders shared_data.headers = true)
    (htrig : request.method = Method.other mname ∨
      (request.method = Method.GET ∧ request.path.drop 1 ≠ "" ∧
        startsWithDot (request.path.drop 1) = false ∧
        fs.isFile (shared_data.directory_path ++ request.path.drop 1) = false))
    (hfb : shared_data.not_found_file_path = some fp) :
    (∀ data, fs.read fp = Except.ok data →
      request_handler request shared_data fs t =
        some ({ status := 404,
                headers := shared_data.headers ++ [("content-type", "text/html")],
                body := Body.bytes data },
          { time := t, status := 404, methodTag := "GET", uri := request.uri,
            reason := "requested address not found" })) ∧
    (∀ err, fs.read fp = Except.error err →
      request_handler request shared_data fs t =
        some ({ status := 404,
                headers := shared_data.headers ++ [("content-type", "plain/text")],
                body := Body.str "404 Not Found" },
          { time := t, status := 404, methodTag := "GET", uri := request.uri,
            reason := "requested address not found" })) := by
  obtain ⟨m, p, u⟩ := request
  have hrb := rb_of_valid shared_data hvalid
  have hn : validHeaderName "content-type" = true := by decide
  have hv1 : validHeaderValue "text/html" = true := by decide
  have hv2 : validHeaderValue "plain/text" = true := by decide
  have hreduce : request_handler { method := m, path := p, uri := u } shared_data fs t =
      not_found_response
        { headerList := shared_data.headers, statusCode := 200, hasError := false }
        fs shared_data { method := m, path := p, uri := u } t := by
    rcases htrig with hm | ⟨hm, hne, hd, hmiss⟩
    · simp only at hm
      subst hm
      simp only [request_handler]
      rw [hrb]
    · simp only at hm hne hd hmiss
      subst hm
      simp only [request_handler]
      rw [hrb, if_neg hne, if_neg (by simp [hd])]
      simp only [serve_file, hmiss, Bool.false_eq_true, if_false]
  constructor
  · intro data hread
    rw [hreduce]
    simp only [not_found_response, not_found_body, hfb, hread,
      ResponseBuilder.header, ResponseBuilder.status, ResponseBuilder.body]
    simp [hn, hv1]
  · intro err hread
    rw [hreduce]
    simp only [not_found_response, not_found_body, hfb, hread,
      ResponseBuilder.header, ResponseBuilder.status, ResponseBuilder.body]
    simp [hn, hv2]

/-- Witness for C4: a POST request with a configured fallback file, in
the readable and the unreadable case, and a GET miss with the fallback
unreadable. -/
theorem claim_c4_witness :
    request_handler { method := Method.other "POST", path := "/nope", uri := "/nope" }
        { headers := [("x-a", "1")], directory_path := "root/",
          not_found_file_path := some "root/a.txt" } fsA 4 =
      some ({ status := 404,
              headers := [("x-a", "1"), ("content-type", "text/html")],
              body := Body.bytes [65, 66] },
        { time := 4, status := 404, methodTag := "GET", uri := "/nope",
          reason := "requested address not found" }) ∧
    request_handler { method := Method.other "POST", path := "/nope", uri := "/nope" }
        { headers := [("x-a", "1")], directory_path := "root/",
          not_found_file_path := some "root/a.txt" } fsNone 4 =
      some ({ status := 404,
              headers := [("x-a", "1"), ("content-type", "plain/text")],
              body := Body.str "404 Not Found" },
        { time := 4, status := 404, methodTag := "GET", uri := "/nope",
          reason := "requested address not found" }) ∧
    request_handler { method := Method.GET, path := "/nope", uri := "/nope" }
        { headers := [("x-a", "1")], directory_path := "root/",
          not_found_file_path := some "root/a.txt" } fsNone 4 =
      some ({ status := 404,
              headers := [("x-a", "1"), ("content-type", "plain/text")],
              body := Body.str "404 Not Found" },
        { time := 4, status := 404, methodTag := "GET", uri := "/nope",
          reason := "requested address not found" }) :=
  ⟨(claim_c4 _ _ fsA 4 "POST" "root/a.txt" (by decide) (Or.inl rfl) rfl).1 [65, 66] rfl,
   (claim_c4 _ _ fsNone 4 "POST" "root/a.txt" (by decide) (Or.inl rfl) rfl).2 "not found" rfl,
   (claim_c4 _ _ fsNone 4 "unused" "root/a.txt" (by decide)
      (Or.inr ⟨rfl, by decide, by decide, rfl⟩) rfl).2 "not found" rfl⟩

end ServeDir

namespace ServeDir

/-- C5: evaluating the handler at a GET for a missing file with no
fallback configured shows the 404 carries the literal body
`404 Not Found` but a `content-type` header whose value is the code's
literal `plain/text`, not the valid MIME type `text/plain` the
specification states; no header of the response is valued `text/plain`. -/
theorem claim_c5 :
    request_handler { method := Method.GET, path := "/missing", uri := "/missing" }
        { headers := [], directory_path := "root/", not_found_file_path := none } fsNone 3 =
      some ({ status := 404, headers := [("content-type", "plain/text")],
              body := Body.str "404 Not Found" },
        { time := 3, status := 404, methodTag := "GET", uri := "/missing",
          reason := "requested address not found" }) ∧
    ("content-type", "text/plain") ∉
      ({ status := 404, headers := [("content-type", "plain/text")],
         body := Body.str "404 Not Found" } : Response).headers :=
  ⟨rfl, by decide⟩

end ServeDir

namespace ServeDir

/-- Counterexample for C7 as stated, in both respects the code deviates:
a POST request reaching the not-found exit is logged with the method tag
`GET`, not its actual method `POST` (the 404 log line's method is
hardcoded), and the OPTIONS log line carries no reason text at all (its
trailing reason is empty). -/
theorem claim_c7_counterexample :
    (request_handler { method := Method.other "POST", path := "/x", uri := "/x" }
        { headers := [], directory_path := "root/", not_found_file_path := none }
        fsNone 9).map (fun rl => rl.2.methodTag) = some "GET" ∧
    Method.name (Method.other "POST") = "POST" ∧
    ("GET" : String) ≠ "POST" ∧
    (request_handler { method := Method.OPTIONS, path := "/x", uri := "/x" }
        { headers := [], directory_path := "root/", not_found_file_path := none }
        fsNone 9).map (fun rl => rl.2.reason) = some "" :=
  ⟨rfl, rfl, by decide, rfl⟩

/-- C7 (amended): every branch emits exactly one log line carrying the
timestamp captured once at entry, the resulting status code, and the
original URI, together with a method tag and trailing reason text — but
(a) the tag is the literal `GET` on every branch except OPTIONS, so the
not-found exit triggered by a non-GET method still records `GET` rather
than the actual method, and (b) the reason is the branch's fixed tag
(invalid path, file path, address not found), except that the 500 branch
logs the underlying read error message and the OPTIONS line carries no
reason text at all. -/
theorem claim_c7 (request : Request) (shared_data : SharedData) (fs : FileSystem) (t : Nat)
    (r : Response) (l : LogLine)
    (h : request_handler request shared_data fs t = some (r, l)) :
    l.time = t ∧ l.uri = request.uri ∧ l.status = r.status ∧
    l.methodTag = (if request.method = Method.OPTIONS then "OPTIONS" else "GET") ∧
    (if request.method = Method.OPTIONS then l.reason = ""
     else
       (r.status = 403 ∧ l.reason = "requested invalid path") ∨
       (r.status = 200 ∧ l.reason = "requested file path") ∨
       (r.status = 500 ∧ ∃ up, fs.read (shared_data.directory_path ++ up) =
         Except.error l.reason) ∨
       (r.status = 404 ∧ l.reason = "requested address not found")) := by
  obtain ⟨m, p, u⟩ := request
  have from_serve :
      ∀ up, serve_file
          (shared_data.headers.foldl (fun b kv => b.header kv.1 kv.2) ResponseBuilder.new)
          fs shared_data up { method := m, path := p, uri := u } t = some (r, l) →
        l.time = t ∧ l.uri = u ∧ l.status = r.status ∧ l.methodTag = "GET" ∧
        ((r.status = 403 ∧ l.reason = "requested invalid path") ∨
         (r.status = 200 ∧ l.reason = "requested file path") ∨
         (r.status = 500 ∧ ∃ up, fs.read (shared_data.directory_path ++ up) =
           Except.error l.reason) ∨
         (r.status = 404 ∧ l.reason = "requested address not found")) := by
    intro up hs
    obtain ⟨he, hc⟩ := serve_file_eq_some _ _ _ _ _ _ _ _ hs
    have h200 := (rb_fields_of_ok shared_data.headers he).2
    rcases hc with ⟨data, -, -, hr, hl⟩ | ⟨err, -, herr, hr, hl⟩ | ⟨-, hnf⟩
    · subst hl
      refine ⟨rfl, rfl, ?_, rfl, Or.inr (Or.inl ⟨?_, rfl⟩)⟩
      · rw [hr]
        exact h200.symm
      · rw [hr]
        exact h200
    · subst hl
      refine ⟨rfl, rfl, ?_, rfl, Or.inr (Or.inr (Or.inl ⟨?_, ⟨up, herr⟩⟩))⟩
      · rw [hr]
      · rw [hr]
    · obtain ⟨-, hr, hl⟩ := not_found_response_eq_some _ _ _ _ _ _ _ hnf
      subst hl
      refine ⟨rfl, rfl, ?_, rfl, Or.inr (Or.inr (Or.inr ⟨?_, rfl⟩))⟩
      · rw [hr]
      · rw [hr]
  cases m with
  | GET =>
    simp only [request_handler] at h
    have hno : ¬(Method.GET = Method.OPTIONS) := by decide
    simp only [if_neg hno]
    by_cases hp : p.drop 1 = ""
    · rw [if_pos hp] at h
      exact from_serve _ h
    · rw [if_neg hp] at h
      by_cases hd : startsWithDot (p.drop 1)
      · rw [if_pos hd] at h
        obtain ⟨resp, hresp, heq⟩ := Option.map_eq_some'.mp h
        obtain ⟨-, hr⟩ := status_body_eq_some _ 403 _ _ (by norm_num) (by norm_num) hresp
        obtain ⟨hr1, hl1⟩ := (Prod.mk.injEq _ _ _ _).mp heq
        rw [← hl1, ← hr1, hr]
        exact ⟨rfl, rfl, rfl, rfl, Or.inl ⟨rfl, rfl⟩⟩
      · rw [if_neg hd] at h
        exact from_serve _ h
  | OPTIONS =>
    simp only [request_handler] at h
    obtain ⟨resp, hresp, heq⟩ := Option.map_eq_some'.mp h
    obtain ⟨he, hr⟩ := body_eq_some _ _ _ hresp
    obtain ⟨hr1, hl1⟩ := (Prod.mk.injEq _ _ _ _).mp heq
    have h200 := (rb_fields_of_ok shared_data.headers he).2
    rw [← hl1, ← hr1, hr]
    exact ⟨rfl, rfl, h200.symm, by simp, by simp⟩
  | other name =>
    simp only [request_handler] at h
    obtain ⟨-, hr, hl⟩ := not_found_response_eq_some _ _ _ _ _ _ _ h
    subst hl
    have hno : ¬(Method.other name = Method.OPTIONS) := by simp
    rw [if_neg hno, if_neg hno]
    refine ⟨rfl, rfl, ?_, rfl, Or.inr (Or.inr (Or.inr ⟨?_, rfl⟩))⟩
    · rw [hr]
    · rw [hr]

/-- Witness for C7 (amended) at a concrete POST request reaching the
not-found exit. -/
theorem claim_c7_witness :
    ({ time := 9, status := 404, methodTag := "GET", uri := "/x",
       reason := "requested address not found" } : LogLine).time = 9 ∧
    ({ time := 9, status := 404, methodTag := "GET", uri := "/x",
       reason := "requested address not found" } : LogLine).uri =
      ({ method := Method.other "POST", path := "/x", uri := "/x" } : Request).uri ∧
    ({ time := 9, status := 404, methodTag := "GET", uri := "/x",
       reason := "requested address not found" } : LogLine).status =
      ({ status := 404, headers := [("content-type", "plain/text")],
         body := Body.str "404 Not Found" } : Response).status ∧
    ({ time := 9, status := 404, methodTag := "GET", uri := "/x",
       reason := "requested address not found" } : LogLine).methodTag =
      (if ({ method := Method.other "POST", path := "/x", uri := "/x" } : Request).method =
          Method.OPTIONS then "OPTIONS" else "GET") ∧
    (if ({ method := Method.other "POST", path := "/x", uri := "/x" } : Request).method =
        Method.OPTIONS then
      ({ time := 9, status := 404, methodTag := "GET", uri := "/x",
         reason := "requested address not found" } : LogLine).reason = ""
     else
      (({ status := 404, headers := [("content-type", "plain/text")],
          body := Body.str "404 Not Found" } : Response).status = 403 ∧
        ({ time := 9, status := 404, methodTag := "GET", uri := "/x",
           reason := "requested address not found" } : LogLine).reason =
          "requested invalid path") ∨
      (({ status := 404, headers := [("content-type", "plain/text")],
          body := Body.str "404 Not Found" } : Response).status = 200 ∧
        ({ time := 9, status := 404, methodTag := "GET", uri := "/x",
           reason := "requested address not found" } : LogLine).reason =
          "requested file path") ∨
      (({ status := 404, headers := [("content-type", "plain/text")],
          body := Body.str "404 Not Found" } : Response).status = 500 ∧
        ∃ up, fsNone.read ("root/" ++ up) = Except.error
          ({ time := 9, status := 404, methodTag := "GET", uri := "/x",
             reason := "requested address not found" } : LogLine).reason) ∨
      (({ status := 404, headers := [("content-type", "plain/text")],
          body := Body.str "404 Not Found" } : Response).status = 404 ∧
        ({ time := 9, status := 404, methodTag := "GET", uri := "/x",
           reason := "requested address not found" } : LogLine).reason =
          "requested address not found")) :=
  claim_c7 { method := Method.other "POST", path := "/x", uri := "/x" }
    { headers := [], directory_path := "root/", not_found_file_path := none } fsNone 9
    { status := 404, headers := [("content-type", "plain/text")],
      body := Body.str "404 Not Found" }
    { time := 9, status := 404, methodTag := "GET", uri := "/x",
      reason := "requested address not found" }
    rfl

end ServeDir

namespace ServeDir

/-- Counterexample for C6 as stated: with no opt-out and a user-specified
`access-control-allow-origin` already in the list, the default `*` entry
is appended anyway — the list does not stay unchanged as the
"appended only if not already present" reading requires. -/
theorem claim_c6_counterexample :
    apply_default_headers false [("access-control-allow-origin", "http://example.com")] ≠
      [("access-control-allow-origin", "http://example.com")] ∧
    apply_default_headers false [("access-control-allow-origin", "http://example.com")] =
      [("access-control-allow-origin", "http://example.com"),
       ("access-control-allow-origin", "*")] :=
  ⟨by decide, rfl⟩

/-- C6 (amended): when the caller does not opt out, the pair
`access-control-allow-origin: *` is appended unconditionally at the end of
the header list — even when a header with that name is already present —
leaving every previously inserted entry (hence any user-specified value)
in place and unmodified; with the opt-out flag the list is unchanged. -/
theorem claim_c6 (headers : List (String × String)) :
    apply_default_headers true headers = headers ∧
    apply_default_headers false headers =
      headers ++ [("access-control-allow-origin", "*")] :=
  ⟨rfl, rfl⟩

/-- The not-found exit always produces a response when handed an
error-free builder: the fallback-file read failure degrades silently. -/
theorem not_found_response_isSome (rb : ResponseBuilder) (fs : FileSystem)
    (shared_data : SharedData) (request : Request) (t : Nat)
    (hb : rb.hasError = false) :
    (not_found_response rb fs shared_data request t).isSome = true := by
  have hn : validHeaderName "content-type" = true := by decide
  have hv1 : validHeaderValue "text/html" = true := by decide
  have hv2 : validHeaderValue "plain/text" = true := by decide
  cases h2 : (not_found_body fs shared_data.not_found_file_path).2 <;>
    simp [not_found_response, ResponseBuilder.header, ResponseBuilder.status,
      ResponseBuilder.body, hb, hn, hv1, hv2, h2]

/-- The file-serving tail always produces a response when handed an
error-free builder. -/
theorem serve_file_isSome (rb : ResponseBuilder) (fs : FileSystem) (shared_data : SharedData)
    (up : String) (request : Request) (t : Nat)
    (hb : rb.hasError = false) :
    (serve_file rb fs shared_data up request t).isSome = true := by
  by_cases hf : fs.isFile (shared_data.directory_path ++ up)
  · simp only [serve_file, hf, if_true]
    cases hread : fs.read (shared_data.directory_path ++ up) with
    | ok data => simp [ResponseBuilder.body, hb]
    | error err => simp [ResponseBuilder.status, ResponseBuilder.body, hb]
  · simp only [serve_file, hf, Bool.false_eq_true, if_false]
    exact not_found_response_isSome _ _ _ _ _ hb

/-- C8: the handler is total — for every request with a runtime-parsed
(slash-leading) URI path and every configuration whose header list is
valid per the collaborator contract, it returns a response on every path
through the code; no internal failure escapes to the caller. -/
theorem claim_c8 (request : Request) (shared_data : SharedData) (fs : FileSystem) (t : Nat)
    (hvalid : validHeaders shared_data.headers = true)
    (hpath : request.path.data.head? = some '/') :
    (request_handler request shared_data fs t).isSome = true := by
  obtain ⟨m, p, u⟩ := request
  have hrb := rb_of_valid shared_data hvalid
  have hb : ({ headerList := shared_data.headers, statusCode := 200, hasError := false } :
      ResponseBuilder).hasError = false := rfl
  cases m with
  | GET =>
    simp only [request_handler]
    rw [hrb]
    by_cases hp : p.drop 1 = ""
    · rw [if_pos hp]
      exact serve_file_isSome _ _ _ _ _ _ hb
    · rw [if_neg hp]
      by_cases hd : startsWithDot (p.drop 1)
      · rw [if_pos hd]
        simp [ResponseBuilder.status, ResponseBuilder.body]
      · rw [if_neg hd]
        exact serve_file_isSome _ _ _ _ _ _ hb
  | OPTIONS =>
    simp only [request_handler]
    rw [hrb]
    simp [ResponseBuilder.body]
  | other name =>
    simp only [request_handler]
    rw [hrb]
    exact not_found_response_isSome _ _ _ _ _ hb

/-- Witness for C8 at a concrete request and configuration. -/
theorem claim_c8_witness :
    (request_handler { method := Method.GET, path := "/a.txt", uri := "/a.txt" }
      { headers := [("x-a", "1")], directory_path := "root/", not_found_file_path := none }
      fsA 7).isSome = true :=
  claim_c8 _ _ _ 7 (by decide) (by decide)

/-- C10: an OPTIONS request is answered 200 with an empty body and
exactly the configured headers, for any URI and independent of the
filesystem contents. -/
theorem claim_c10 (request : Request) (shared_data : SharedData) (t : Nat)
    (hm : request.method = Method.OPTIONS) :
    (∀ fs fs', request_handler request shared_data fs t =
      request_handler request shared_data fs' t) ∧
    (∀ fs r l, ∀ _ : request_handler request shared_data fs t = some (r, l),
      r.status = 200 ∧ r.body = Body.empty ∧ r.headers = shared_data.headers) := by
  obtain ⟨m, p, u⟩ := request
  simp only at hm
  subst hm
  constructor
  · intro fs fs'
    rfl
  · intro fs r l h
    simp only [request_handler] at h
    obtain ⟨resp, hresp, heq⟩ := Option.map_eq_some'.mp h
    obtain ⟨he, hr⟩ := body_eq_some _ _ _ hresp
    obtain ⟨hfields1, hfields2⟩ := rb_fields_of_ok shared_data.headers he
    rw [← ((Prod.mk.injEq _ _ _ _).mp heq).1, hr]
    exact ⟨hfields2, rfl, hfields1⟩

/-- Witness for C10 at a concrete OPTIONS request: filesystem
independence and the concrete 200 empty response. -/
theorem claim_c10_witness :
    (request_handler { method := Method.OPTIONS, path := "/whatever", uri := "/whatever" }
        { headers := [("x-a", "1")], directory_path := "root/", not_found_file_path := none }
        fsA 2 =
      request_handler { method := Method.OPTIONS, path := "/whatever", uri := "/whatever" }
        { headers := [("x-a", "1")], directory_path := "root/", not_found_file_path := none }
        fsNone 2) ∧
    (({ status := 200, headers := [("x-a", "1")], body := Body.empty } : Response).status = 200 ∧
      ({ status := 200, headers := [("x-a", "1")], body := Body.empty } : Response).body =
        Body.empty ∧
      ({ status := 200, headers := [("x-a", "1")], body := Body.empty } : Response).headers =
        [("x-a", "1")]) :=
  ⟨(claim_c10 { method := Method.OPTIONS, path := "/whatever", uri := "/whatever" }
      { headers := [("x-a", "1")], directory_path := "root/", not_found_file_path := none } 2
      rfl).1 fsA fsNone,
   (claim_c10 { method := Method.OPTIONS, path := "/whatever", uri := "/whatever" }
      { headers := [("x-a", "1")], directory_path := "root/", not_found_file_path := none } 2
      rfl).2 fsNone _ _ rfl⟩

end ServeDir

namespace ServeDir

/-- `update` with a fresh key appends the pair at the end and reports
`false`. -/
theorem update_of_not_mem (xs : List (String × String)) (v : String × String)
    (hmem : v.1 ∉ xs.map Prod.fst) : update xs v = (xs ++ [v], false) := by
  induction xs with
  | nil => rfl
  | cons x tl ih =>
    simp only [List.map_cons, List.mem_cons] at hmem
    push_neg at hmem
    have hx : ¬ (x.1 = v.1) := fun hh => hmem.1 hh.symm
    simp only [update, if_neg hx]
    simp [ih hmem.2]

/-- `update` with a key already present reports `true` and leaves the
key sequence of the list unchanged. -/
theorem update_of_mem (xs : List (String × String)) (v : String × String)
    (hmem : v.1 ∈ xs.map Prod.fst) :
    (update xs v).2 = true ∧
    ((update xs v).1).map Prod.fst = xs.map Prod.fst := by
  induction xs with
  | nil => simp at hmem
  | cons x tl ih =>
    by_cases hx : x.1 = v.1
    · simp [update, hx]
    · simp only [List.map_cons, List.mem_cons] at hmem
      rcases hmem with h | h
      · exact absurd h.symm hx
      · obtain ⟨h1, h2⟩ := ih h
        simp [update, hx, h1, h2]

/-- Mapping a conditional overwrite over a list whose keys avoid `k` is
the identity. -/
theorem map_overwrite_of_not_mem (xs : List (String × String)) (k w : String)
    (h : k ∉ xs.map Prod.fst) :
    xs.map (fun x => if x.1 = k then (x.1, w) else x) = xs := by
  induction xs with
  | nil => rfl
  | cons x tl ih =>
    simp only [List.map_cons, List.mem_cons] at h
    push_neg at h
    have hx : ¬ (x.1 = k) := fun hh => h.1 hh.symm
    simp only [List.map_cons, if_neg hx]
    rw [ih h.2]

/-- On a list with unique keys, `update` with a present key overwrites
exactly the matching entry's value in place. -/
theorem update_of_mem_nodup (xs : List (String × String)) (v : String × String)
    (hnd : (xs.map Prod.fst).Nodup) (hmem : v.1 ∈ xs.map Prod.fst) :
    (update xs v).1 = xs.map (fun x => if x.1 = v.1 then (x.1, v.2) else x) := by
  induction xs with
  | nil => simp at hmem
  | cons x tl ih =>
    simp only [List.map_cons, List.nodup_cons] at hnd
    by_cases hx : x.1 = v.1
    · simp only [update, if_pos hx, List.map_cons, if_pos hx]
      rw [map_overwrite_of_not_mem tl v.1 v.2 (hx ▸ hnd.1)]
    · simp only [List.map_cons, List.mem_cons] at hmem
      rcases hmem with h | h
      · exact absurd h.symm hx
      · simp only [update, if_neg hx, List.map_cons, if_neg hx]
        rw [ih hnd.2 h]

/-- `update` preserves uniqueness of the keys. -/
theorem update_nodup (xs : List (String × String)) (v : String × String)
    (hnd : (xs.map Prod.fst).Nodup) :
    (((update xs v).1).map Prod.fst).Nodup := by
  by_cases hmem : v.1 ∈ xs.map Prod.fst
  · rw [(update_of_mem xs v hmem).2]
    exact hnd
  · rw [update_of_not_mem xs v hmem]
    simp [List.nodup_append, hnd, hmem]

/-- Any sequence of `update`s starting from the empty list yields unique
keys. -/
theorem foldl_update_nodup (vs : List (String × String)) :
    ((vs.foldl (fun acc w => (update acc w).1) []).map Prod.fst).Nodup := by
  suffices h : ∀ acc : List (String × String), (acc.map Prod.fst).Nodup →
      ((vs.foldl (fun acc w => (update acc w).1) acc).map Prod.fst).Nodup by
    exact h [] (by simp)
  induction vs with
  | nil =>
    intro acc h
    simpa using h
  | cons w tl ih =>
    intro acc h
    exact ih _ (update_nodup acc w h)

/-- C9: on a list with unique names, `update` with a present name
overwrites that entry's value in place (same names, same order, same
length) and reports `true`; with a fresh name it appends at the end and
reports `false`; uniqueness of names is preserved, and any sequence of
updates from the empty list keeps names unique. -/
theorem claim_c9 (xs : List (String × String)) (v : String × String)
    (hnd : (xs.map Prod.fst).Nodup) :
    (v.1 ∈ xs.map Prod.fst →
      (update xs v).2 = true ∧
      (update xs v).1 = xs.map (fun x => if x.1 = v.1 then (x.1, v.2) else x) ∧
      ((update xs v).1).map Prod.fst = xs.map Prod.fst ∧
      (update xs v).1.length = xs.length) ∧
    (v.1 ∉ xs.map Prod.fst → update xs v = (xs ++ [v], false)) ∧
    (((update xs v).1).map Prod.fst).Nodup ∧
    (∀ vs : List (String × String),
      ((vs.foldl (fun acc w => (update acc w).1) []).map Prod.fst).Nodup) := by
  refine ⟨?_, fun h => update_of_not_mem xs v h, update_nodup xs v hnd,
    fun vs => foldl_update_nodup vs⟩
  intro hmem
  obtain ⟨h1, h2⟩ := update_of_mem xs v hmem
  refine ⟨h1, update_of_mem_nodup xs v hnd hmem, h2, ?_⟩
  have hlen := congrArg List.length h2
  simpa using hlen

/-- Witness for C9: overwriting an existing name in place and appending
a fresh one, at concrete lists. -/
theorem claim_c9_witness :
    ((update [("a", "1"), ("b", "2")] ("a", "3")).2 = true ∧
      (update [("a", "1"), ("b", "2")] ("a", "3")).1 =
        [("a", "1"), ("b", "2")].map (fun x => if x.1 = "a" then (x.1, "3") else x) ∧
      ((update [("a", "1"), ("b", "2")] ("a", "3")).1).map Prod.fst =
        ([("a", "1"), ("b", "2")] : List (String × String)).map Prod.fst ∧
      (update [("a", "1"), ("b", "2")] ("a", "3")).1.length =
        ([("a", "1"), ("b", "2")] : List (String × String)).length) ∧
    update [("a", "1"), ("b", "2")] ("c", "4") =
      ([("a", "1"), ("b", "2"), ("c", "4")], false) :=
  ⟨(claim_c9 [("a", "1"), ("b", "2")] ("a", "3") (by decide)).1 (by decide),
   (claim_c9 [("a", "1"), ("b", "2")] ("c", "4") (by decide)).2.1 (by decide)⟩

end ServeDir
